import Mathlib

/-!
Verification development for the charms-wallet-js core: a shallow embedding
of the wallet engine (mnemonic service, transaction builder, transaction
signer, isolated address signer, address validation) with theorems about the
behaviour of those operations.

Addresses and other byte data are modelled as `List Nat` (the UTF-8 byte
values of the JavaScript strings; all relevant strings are ASCII, so bytes
and UTF-16 units coincide).  Satoshi amounts are `Int` (JavaScript numbers
used integrally).  Fallible operations return `Except WalletError` or
`Option`; a thrown JavaScript exception is an `error` value.
-/

deriving instance DecidableEq for Except

namespace Charms

/-- Network selector, from src/types: 'mainnet' | 'testnet' | 'testnet4'. -/
inductive Network
  | mainnet
  | testnet
  | testnet4
  deriving DecidableEq

/-- Error taxonomy from src/types: each constructor is one of the custom
error classes, carrying its message. -/
inductive WalletError
  | validationError (msg : String)
  | transactionError (msg : String)
  | cryptographyError (msg : String)
  deriving DecidableEq

/-- UTXO record from src/types.  `txid` stays a hex string (as in the JS
interface); `address` is the byte list of the address string. -/
structure UTXO where
  txid : String
  vout : Int
  amount : Int
  address : List Nat
  deriving DecidableEq

/-- Payment output from src/types. -/
structure Output where
  address : List Nat
  amount : Int
  deriving DecidableEq

/-- Mining payload from src/types: hash hex string and nonce. -/
structure MiningData where
  hash : String
  nonce : Int
  deriving DecidableEq

/-- Parameters of TransactionBuilder.createSimpleTransaction.  A `feeRate`
of `none` models the JS argument being absent (the destructuring default 10
applies); `some 0` models an explicitly passed 0, which is falsy in JS and
therefore skips the fee-rate range validation yet is used as the rate. -/
structure SimpleTxParams where
  utxos : List UTXO
  outputs : List Output
  changeAddress : List Nat
  feeRate : Option Int
  deriving DecidableEq

/-- Parameters of TransactionBuilder.createMiningTransaction. -/
structure MiningTxParams where
  utxo : UTXO
  miningData : MiningData
  changeAddress : List Nat
  feeRate : Option Int
  deriving DecidableEq

/-- Output script as built by TransactionBuilder.createScriptPubKey.  The
library calls btc.p2tr / btc.p2wpkh / btc.p2pkh of @scure/btc-signer, each of
which maps its payload deterministically (and injectively per constructor) to
script bytes, so the script is modelled as the constructor tag plus payload. -/
inductive Script
  | p2tr (internalKey : List Nat)
  | p2wpkh (hash : List Nat)
  | p2pkh (hash : List Nat)
  | opReturn (data : List Nat)
  deriving DecidableEq

/-- Transaction input as assembled by the builder: reversed txid bytes,
vout, the witness-utxo script and amount. -/
structure TxIn where
  txid : List Nat
  vout : Int
  script : Script
  amount : Int
  deriving DecidableEq

/-- Transaction output: script and amount. -/
structure TxOut where
  script : Script
  amount : Int
  deriving DecidableEq

/-- The transaction the builder assembles (btc.Transaction contents that the
wallet core reads back: inputs and outputs). -/
structure Tx where
  inputs : List TxIn
  outputs : List TxOut
  deriving DecidableEq

/-- Transaction constants from src/constants (TRANSACTION_CONSTANTS). -/
def DUST_THRESHOLD : Int := 546

/-- Minimum UTXO amount from TRANSACTION_CONSTANTS. -/
def MIN_UTXO_AMOUNT : Int := 1000

/-- Minimum fee rate from TRANSACTION_CONSTANTS. -/
def MIN_FEE_RATE : Int := 1

/-- Maximum fee rate from TRANSACTION_CONSTANTS. -/
def MAX_FEE_RATE : Int := 1000

/-- Default fee rate from TRANSACTION_CONSTANTS. -/
def DEFAULT_FEE_RATE : Int := 10

/-- Maximum OP_RETURN payload size from TRANSACTION_CONSTANTS. -/
def MAX_OP_RETURN_SIZE : Nat := 80

/-- Value of one lowercase-hex digit, as accepted by the scure hex decoder
used by the builder (hex.decode of @scure/base: digits and lowercase a-f). -/
def hexDigitVal (c : Char) : Option Nat :=
  if 48 ≤ c.toNat ∧ c.toNat ≤ 57 then some (c.toNat - 48)
  else if 97 ≤ c.toNat ∧ c.toNat ≤ 102 then some (c.toNat - 87)
  else none

/-- hex.decode on a character list: pairs of hex digits to bytes; an odd
length or a non-hex character throws (modelled as `none`). -/
def hexDecodeChars : List Char → Option (List Nat)
  | [] => some []
  | [_] => none
  | c1 :: c2 :: rest => do
    let hi ← hexDigitVal c1
    let lo ← hexDigitVal c2
    let tail ← hexDecodeChars rest
    pure ((16 * hi + lo) :: tail)

/-- hex.decode on a string. -/
def hexDecode (s : String) : Option (List Nat) :=
  hexDecodeChars s.data

/-- Byte values of the string bc1p. -/
def bc1p : List Nat := [98, 99, 49, 112]

/-- Byte values of the string tb1p. -/
def tb1p : List Nat := [116, 98, 49, 112]

/-- Byte values of the string bc1q. -/
def bc1q : List Nat := [98, 99, 49, 113]

/-- Byte values of the string tb1q. -/
def tb1q : List Nat := [116, 98, 49, 113]

/-- Pad a byte list on the right with zeros to length `n` (the
`new Uint8Array(n); padded.set(hash)` idiom of createScriptPubKey). -/
def padTo (n : Nat) (l : List Nat) : List Nat :=
  l ++ List.replicate (n - l.length) 0

/-- TransactionBuilder.createScriptPubKey: for addresses starting with
bc1p/tb1p, a P2TR script from the first 32 bytes of the UTF-8 address text
(zero-padded); for bc1q/tb1q, a P2WPKH script from the first 20 bytes; any
other address, a P2PKH script from the first 20 bytes.  `startsWith` on these
4-character ASCII prefixes is `take 4 = prefix bytes` on the byte list. -/
def createScriptPubKey (address : List Nat) : Script :=
  if address.take 4 = bc1p ∨ address.take 4 = tb1p then
    Script.p2tr (padTo 32 (address.take 32))
  else if address.take 4 = bc1q ∨ address.take 4 = tb1q then
    Script.p2wpkh (padTo 20 (address.take 20))
  else
    Script.p2pkh (padTo 20 (address.take 20))

/-- TransactionBuilder.estimateTransactionSize: 10-byte overhead, 57 vbytes
per input, 43 per output. -/
def estimateTransactionSize (inputs outputCount : Nat) : Nat :=
  10 + inputs * 57 + outputCount * 43

/-- Shape test applied to each UTXO by the validators: the JS condition
`!utxo.txid || typeof utxo.vout !== 'number' || !utxo.amount || !utxo.address`
(an amount of 0 is falsy and counts as missing). -/
def utxoShapeBad (u : UTXO) : Prop :=
  u.txid = "" ∨ u.amount = 0 ∨ u.address = []

instance (u : UTXO) : Decidable (utxoShapeBad u) := by
  unfold utxoShapeBad; infer_instance

/-- Error raised for one output by the validateSimpleParams loop, if any:
first the shape test (`!output.address || typeof output.amount !== 'number'
|| output.amount <= 0`), then the dust-threshold test. -/
def outputError (o : Output) : Option WalletError :=
  if o.address = [] ∨ o.amount ≤ 0 then
    some (WalletError.validationError "Invalid output format")
  else if o.amount < DUST_THRESHOLD then
    some (WalletError.validationError "Output amount below dust threshold")
  else none

/-- The JS truthiness of the optional feeRate: present and non-zero. -/
def feeRateTruthy : Option Int → Prop
  | none => False
  | some r => r ≠ 0

instance (fr : Option Int) : Decidable (feeRateTruthy fr) := by
  cases fr <;> · unfold feeRateTruthy; infer_instance

/-- TransactionBuilder.validateSimpleParams, returning the first
ValidationError raised, or `none` when all checks pass.  Note: this
validator has no minimum-UTXO-amount check, and the fee-rate range check is
guarded by the truthiness of feeRate (a fee rate of 0 passes). -/
def validateSimpleParams (p : SimpleTxParams) : Option WalletError :=
  if p.utxos = [] then
    some (WalletError.validationError "At least one UTXO is required")
  else if p.utxos.any (fun u => decide (utxoShapeBad u)) then
    some (WalletError.validationError "Invalid UTXO format")
  else if p.outputs = [] then
    some (WalletError.validationError "At least one output is required")
  else
    match p.outputs.findSome? outputError with
    | some e => some e
    | none =>
      if p.changeAddress = [] then
        some (WalletError.validationError "Invalid change address")
      else if feeRateTruthy p.feeRate ∧
          (p.feeRate.getD DEFAULT_FEE_RATE < MIN_FEE_RATE ∨
            MAX_FEE_RATE < p.feeRate.getD DEFAULT_FEE_RATE) then
        some (WalletError.validationError "Fee rate outside valid range")
      else none

/-- TransactionBuilder.validateMiningParams: UTXO shape, minimum UTXO
amount, mining-data shape (`!miningData.hash` or non-number nonce), hash
length, nonce sign, change address, then the (truthiness-guarded) fee-rate
range check. -/
def validateMiningParams (p : MiningTxParams) : Option WalletError :=
  if utxoShapeBad p.utxo then
    some (WalletError.validationError "Invalid UTXO format")
  else if p.utxo.amount < MIN_UTXO_AMOUNT then
    some (WalletError.validationError "UTXO amount below minimum")
  else if p.miningData.hash = "" then
    some (WalletError.validationError "Invalid mining data format")
  else if p.miningData.hash.length < 32 then
    some (WalletError.validationError "Mining hash too short")
  else if p.miningData.nonce < 0 then
    some (WalletError.validationError "Mining nonce must be non-negative")
  else if p.changeAddress = [] then
    some (WalletError.validationError "Invalid change address")
  else if feeRateTruthy p.feeRate ∧
      (p.feeRate.getD DEFAULT_FEE_RATE < MIN_FEE_RATE ∨
        MAX_FEE_RATE < p.feeRate.getD DEFAULT_FEE_RATE) then
    some (WalletError.validationError "Fee rate outside valid range")
  else none

/-- The fee rate the builder actually uses: the destructuring default
`feeRate = TRANSACTION_CONSTANTS.DEFAULT_FEE_RATE` applies only when the
argument is absent (undefined), so an explicit 0 stays 0. -/
def effectiveFeeRate (fr : Option Int) : Int :=
  fr.getD DEFAULT_FEE_RATE

/-- The transaction input built by tx.addInput for one UTXO: the txid hex is
decoded and reversed, and the witness-utxo script comes from
createScriptPubKey on the UTXO's address. -/
def mkTxIn (u : UTXO) : Option TxIn :=
  (hexDecode u.txid).map fun bs =>
    { txid := bs.reverse, vout := u.vout,
      script := createScriptPubKey u.address, amount := u.amount }

/-- All transaction inputs of a simple build (the addInput loop); `none`
when some txid is not valid hex (hex.decode throws, caught and re-thrown as
TransactionError). -/
def mkTxIns : List UTXO → Option (List TxIn)
  | [] => some []
  | u :: rest =>
    match mkTxIn u with
    | none => none
    | some ti =>
      match mkTxIns rest with
      | none => none
      | some tis => some (ti :: tis)

/-- The requested outputs of a simple build. -/
def mkTxOuts (p : SimpleTxParams) : List TxOut :=
  p.outputs.map fun o =>
    { script := createScriptPubKey o.address, amount := o.amount }

/-- totalInput of createSimpleTransaction. -/
def totalInputOf (p : SimpleTxParams) : Int :=
  (p.utxos.map UTXO.amount).sum

/-- totalOutput of createSimpleTransaction. -/
def totalOutputOf (p : SimpleTxParams) : Int :=
  (p.outputs.map Output.amount).sum

/-- The fee createSimpleTransaction computes:
feeRate * estimateTransactionSize(|utxos|, |outputs| + 1). -/
def simpleFee (p : SimpleTxParams) : Int :=
  effectiveFeeRate p.feeRate *
    (estimateTransactionSize p.utxos.length (p.outputs.length + 1) : Int)

/-- changeAmount of createSimpleTransaction. -/
def simpleChange (p : SimpleTxParams) : Int :=
  totalInputOf p - totalOutputOf p - simpleFee p

/-- TransactionBuilder.createSimpleTransaction: validate, add the inputs
(decoding each txid), add the requested outputs, then append a change output
exactly when changeAmount > DUST_THRESHOLD, raise TransactionError when
changeAmount < 0, and otherwise return the transaction with the change
silently absorbed into the fee. -/
def createSimpleTransaction (p : SimpleTxParams) : Except WalletError Tx :=
  match validateSimpleParams p with
  | some e => Except.error e
  | none =>
    match mkTxIns p.utxos with
    | none => Except.error
        (WalletError.transactionError "Failed to create simple transaction")
    | some txIns =>
      if DUST_THRESHOLD < simpleChange p then
        Except.ok
          { inputs := txIns,
            outputs := mkTxOuts p ++
              [{ script := createScriptPubKey p.changeAddress,
                 amount := simpleChange p }] }
      else if simpleChange p < 0 then
        Except.error
          (WalletError.transactionError "Insufficient funds for transaction")
      else
        Except.ok { inputs := txIns, outputs := mkTxOuts p }

/-- nonce.toString(16).padStart(8, '0') for a validated (non-negative)
nonce. -/
def nonceToHex (nonce : Int) : List Char :=
  let s := Nat.toDigits 16 nonce.toNat
  List.replicate (8 - s.length) '0' ++ s

/-- TransactionBuilder.createMiningOpReturn: first 32 hex characters of the
hash, plus the 8-hex-character nonce; reject when the byte size exceeds
MAX_OP_RETURN_SIZE; decode the combined hex (a non-hex hash character throws,
surfaced by the outer catch as a TransactionError). -/
def createMiningOpReturn (md : MiningData) : Except WalletError (List Nat) :=
  let combinedHex := md.hash.data.take 32 ++ nonceToHex md.nonce
  if MAX_OP_RETURN_SIZE < combinedHex.length / 2 then
    Except.error (WalletError.transactionError "OP_RETURN data too large")
  else
    match hexDecodeChars combinedHex with
    | none => Except.error
        (WalletError.transactionError "Failed to create mining transaction")
    | some bs => Except.ok bs

/-- changeAmount of createMiningTransaction: the single UTXO's amount minus
feeRate * estimateTransactionSize(1, 2). -/
def miningChange (p : MiningTxParams) : Int :=
  p.utxo.amount - effectiveFeeRate p.feeRate * (estimateTransactionSize 1 2 : Int)

/-- TransactionBuilder.createMiningTransaction: validate, add the single
input (decoding its txid), add the zero-value OP_RETURN output, compute the
change for 1 input / 2 outputs, raise TransactionError when the change is
below the dust threshold, and otherwise append the change output. -/
def createMiningTransaction (p : MiningTxParams) : Except WalletError Tx :=
  match validateMiningParams p with
  | some e => Except.error e
  | none =>
    match mkTxIn p.utxo with
    | none => Except.error
        (WalletError.transactionError "Failed to create mining transaction")
    | some txIn =>
      match createMiningOpReturn p.miningData with
      | Except.error e => Except.error e
      | Except.ok opret =>
        if miningChange p < DUST_THRESHOLD then
          Except.error
            (WalletError.transactionError "Change amount below dust threshold")
        else
          Except.ok
            { inputs := [txIn],
              outputs := [{ script := Script.opReturn opret, amount := 0 },
                          { script := createScriptPubKey p.changeAddress,
                            amount := miningChange p }] }

/-- Sum of the amounts of a transaction's inputs. -/
def txInputsTotal (tx : Tx) : Int :=
  (tx.inputs.map TxIn.amount).sum

/-- Sum of the amounts of a transaction's outputs. -/
def txOutputsTotal (tx : Tx) : Int :=
  (tx.outputs.map TxOut.amount).sum

/-- TransactionSigner.calculateFee (identical in AddressWallet): the single
UTXO argument's amount minus the total of the transaction's outputs.  This
value becomes the `fee` field of the returned TransactionResult and (through
`result.fee || 0`, the identity on non-zero integers) of SignedTransaction. -/
def calculateFee (utxo : UTXO) (tx : Tx) : Int :=
  utxo.amount - txOutputsTotal tx

/-- BIP39_CONSTANTS.SUPPORTED_WORD_COUNTS from src/constants. -/
def SUPPORTED_WORD_COUNTS : List Nat := [12, 15, 18, 21, 24]

/-- The entropy bit count CharmsWallet.generateMnemonic selects:
`wordCount === 12 ? ENTROPY_BITS_12 : ENTROPY_BITS_24`, i.e. 128 bits for a
requested 12 and 256 bits for every other supported request. -/
def generateMnemonicEntropyBits (wordCount : Nat) : Nat :=
  if wordCount = 12 then 128 else 256

/-- Modelled from the spec: the scure bip39 generateMnemonic (an external
dependency, §4.1 of the spec) encodes `bits` bits of entropy plus a
`bits / 32`-bit checksum into 11-bit words, so the produced sentence has
`(bits + bits / 32) / 11` words (128 bits -> 12 words, 256 bits -> 24). -/
def bip39WordsOfEntropy (bits : Nat) : Nat :=
  (bits + bits / 32) / 11

/-- The body of CharmsWallet.generateMnemonic before the catch: an
unsupported word count throws a ValidationError; otherwise the mnemonic is
generated with generateMnemonicEntropyBits bits of entropy.  The result is
abstracted to the word count of the produced mnemonic. -/
def generateMnemonicInner (wordCount : Nat) : Except WalletError Nat :=
  if wordCount ∉ SUPPORTED_WORD_COUNTS then
    Except.error (WalletError.validationError "Unsupported word count")
  else
    Except.ok (bip39WordsOfEntropy (generateMnemonicEntropyBits wordCount))

/-- Message carried by a WalletError (the .message of the JS error). -/
def WalletError.message : WalletError → String
  | WalletError.validationError m => m
  | WalletError.transactionError m => m
  | WalletError.cryptographyError m => m

/-- CharmsWallet.generateMnemonic: the whole body sits in a try whose catch
wraps every error - including the ValidationError thrown for an unsupported
word count - into a CryptographyError. -/
def generateMnemonic (wordCount : Nat) : Except WalletError Nat :=
  match generateMnemonicInner wordCount with
  | Except.ok n => Except.ok n
  | Except.error e => Except.error
      (WalletError.cryptographyError
        ("Failed to generate mnemonic: " ++ e.message))

/-! secp256k1, for the isolated-signer public-key derivation claim.  The
curve field prime, the base point G and the affine group law; points are
`Option (Int × Int)` with `none` the point at infinity, coordinates reduced
modulo the prime. -/

/-- The secp256k1 field prime. -/
def secpP : Int := 2 ^ 256 - 2 ^ 32 - 977

/-- Modular exponentiation (square-and-multiply). -/
def powMod (b : Int) (e : Nat) (m : Int) : Int :=
  if e = 0 then 1 % m
  else
    let h := powMod b (e / 2) m
    let h2 := h * h % m
    if e % 2 = 1 then h2 * (b % m) % m else h2
termination_by e
decreasing_by exact Nat.div_lt_self (Nat.pos_of_ne_zero (by assumption)) one_lt_two

/-- Inverse modulo the secp256k1 prime, by Fermat's little theorem. -/
def modInv (a : Int) : Int :=
  powMod a (2 ^ 256 - 2 ^ 32 - 979) secpP

/-- Affine secp256k1 point addition (curve y^2 = x^3 + 7). -/
def ptAdd (P Q : Option (Int × Int)) : Option (Int × Int) :=
  match P, Q with
  | none, q => q
  | p, none => p
  | some (x1, y1), some (x2, y2) =>
    if x1 = x2 ∧ (y1 + y2) % secpP = 0 then none
    else
      let lam :=
        if x1 = x2 then
          (3 * x1 * x1) % secpP * modInv ((2 * y1) % secpP) % secpP
        else
          (y2 - y1) % secpP * modInv ((x2 - x1) % secpP) % secpP
      let x3 := (lam * lam - x1 - x2) % secpP
      some (x3, (lam * (x1 - x3) - y1) % secpP)

/-- Scalar multiplication by left-to-right double-and-add over the binary
digits of the scalar. -/
def ptMul (k : Nat) (P : Option (Int × Int)) : Option (Int × Int) :=
  (Nat.toDigits 2 k).foldl
    (fun acc c =>
      let d := ptAdd acc acc
      if c == '1' then ptAdd d P else d)
    none

/-- The secp256k1 base point G. -/
def secpG : Option (Int × Int) :=
  some (0x79BE667EF9DCBBAC55A06295CE870B07029BFCDB2DCE28D959F2815B16F81798,
        0x483ADA7726A3C4655DA4FBFC0E1108A8FD17B448A68554199C47D08FFB10D4B8)

/-- Big-endian 32-byte encoding of a field element. -/
def toBytes32 (x : Int) : List Nat :=
  (List.range 32).map fun i => (x.toNat >>> (8 * (31 - i))) % 256

/-- SEC1 compressed encoding of a public key point: parity prefix byte 0x02
or 0x03 followed by the 32 x-coordinate bytes. -/
def compressPubKey : Option (Int × Int) → List Nat
  | none => []
  | some (x, y) => (if y % 2 = 0 then 2 else 3) :: toBytes32 x

/-- Genuine compressed public key of a private scalar d: compress (d * G). -/
def genuinePublicKey (d : Nat) : List Nat :=
  compressPubKey (ptMul d secpG)

/-- AddressWallet.derivePublicKey, the isolated-signer path: a compressed-key
prefix byte 0x02 followed by each private-key byte XORed with 0x01 (the
placeholder transform in the source, not point multiplication). -/
def derivePublicKey (privateKey : List Nat) : List Nat :=
  2 :: (List.range 32).map fun i => privateKey.getD i 0 ^^^ 1

/-- The 32-byte big-endian private key with scalar value 1. -/
def privKeyOne : List Nat :=
  List.replicate 31 0 ++ [1]

/-! bech32m encoding of Taproot addresses (what btc.p2tr of
@scure/btc-signer produces as `.address`), and CharmsWallet.validateAddress
with the ADDRESS_PATTERNS regular expressions from src/constants. -/

/-- The bech32 data-character set qpzry9x8gf2tvdw0s3jn54khce6mua7l as byte
values, indexed by 5-bit group value. -/
def bech32Charset : List Nat :=
  [113, 112, 122, 114, 121, 57, 120, 56, 103, 102, 50, 116, 118, 100, 119,
   48, 115, 51, 106, 110, 53, 52, 107, 104, 99, 101, 54, 109, 117, 97, 55,
   108]

/-- The bech32 checksum generator constants. -/
def bech32Gen : List Nat :=
  [0x3b6a57b2, 0x26508e6d, 0x1ea119fa, 0x3d4233dd, 0x2a1462b3]

/-- One step of the bech32 checksum polymod. -/
def bech32PolymodStep (chk v : Nat) : Nat :=
  let b := chk >>> 25
  let chk2 := ((chk &&& 0x1ffffff) <<< 5) ^^^ v
  (List.range 5).foldl
    (fun c i => if (b >>> i) &&& 1 = 1 then c ^^^ bech32Gen.getD i 0 else c)
    chk2

/-- The bech32 checksum polymod of a value sequence. -/
def bech32Polymod (values : List Nat) : Nat :=
  values.foldl bech32PolymodStep 1

/-- hrp expansion for the bech32 checksum. -/
def hrpExpand (hrp : List Nat) : List Nat :=
  hrp.map (· >>> 5) ++ [0] ++ hrp.map (· &&& 31)

/-- The bech32m constant. -/
def bech32mConst : Nat := 0x2bc830a3

/-- The six 5-bit checksum groups of a bech32m string. -/
def bech32CreateChecksum (hrp data : List Nat) : List Nat :=
  (List.range 6).map fun i =>
    ((bech32Polymod (hrpExpand hrp ++ data ++ [0, 0, 0, 0, 0, 0]) ^^^
      bech32mConst) >>> (5 * (5 - i))) &&& 31

/-- Regroup 8-bit bytes into 5-bit groups, most significant bits first, with
zero padding of the final group (the convertbits routine of BIP173 for
frombits 8, tobits 5, pad true).  `acc` and `bits` carry the pending bits;
at most two groups are emitted per byte since bits stays below 5. -/
def convertBits5 : List Nat → Nat → Nat → List Nat
  | [], acc, bits =>
    if bits = 0 then [] else [(acc <<< (5 - bits)) &&& 31]
  | b :: rest, acc, bits =>
    if 10 ≤ bits + 8 then
      ((((acc <<< 8) ||| b) >>> (bits + 8 - 5)) &&& 31) ::
        ((((acc <<< 8) ||| b) >>> (bits + 8 - 10)) &&& 31) ::
        convertBits5 rest ((acc <<< 8) ||| b) (bits + 8 - 10)
    else
      ((((acc <<< 8) ||| b) >>> (bits + 8 - 5)) &&& 31) ::
        convertBits5 rest ((acc <<< 8) ||| b) (bits + 8 - 5)

/-- Full bech32m string (as a byte list): hrp, the separator 1, then the
data and checksum groups mapped through the character set. -/
def bech32mEncode (hrp data : List Nat) : List Nat :=
  hrp ++ [49] ++
    (data ++ bech32CreateChecksum hrp data).map fun v => bech32Charset.getD v 0

/-- The human-readable part the address derivation selects: bc for mainnet
(btc.NETWORK), tb for testnet and testnet4 (btc.TEST_NETWORK). -/
def hrpOf : Network → List Nat
  | Network.mainnet => [98, 99]
  | Network.testnet => [116, 98]
  | Network.testnet4 => [116, 98]

/-- Modelled from the spec: btc.p2tr(...).address of @scure/btc-signer (an
external dependency, §4.3 of the spec) encodes the 32-byte tweaked output
key as a bech32m witness-version-1 program under the network's hrp.  The
BIP341 key tweak itself (a SHA-256 tagged hash) is left abstract by taking
the 32-byte output key as the argument. -/
def p2trAddress (network : Network) (outputKey : List Nat) : List Nat :=
  bech32mEncode (hrpOf network) (1 :: convertBits5 outputKey 0 0)

/-- Character class [a-zA-HJ-NP-Z0-9] of the P2TR / P2WPKH patterns in
ADDRESS_PATTERNS. -/
def isBech32PatternChar (c : Nat) : Bool :=
  (97 ≤ c && c ≤ 122) || (48 ≤ c && c ≤ 57) || (65 ≤ c && c ≤ 72) ||
    (74 ≤ c && c ≤ 78) || (80 ≤ c && c ≤ 90)

/-- Character class [a-km-zA-HJ-NP-Z1-9] of the legacy patterns. -/
def isBase58PatternChar (c : Nat) : Bool :=
  (97 ≤ c && c ≤ 107) || (109 ≤ c && c ≤ 122) || (65 ≤ c && c ≤ 72) ||
    (74 ≤ c && c ≤ 78) || (80 ≤ c && c ≤ 90) || (49 ≤ c && c ≤ 57)

/-- The MAINNET_P2TR / TESTNET_P2TR patterns: hrp, then 1p, then exactly 58
characters of the bech32 pattern class. -/
def testP2tr (hrp addr : List Nat) : Bool :=
  addr.take (hrp.length + 2) == hrp ++ [49, 112] &&
  addr.length == hrp.length + 60 &&
  (addr.drop (hrp.length + 2)).all isBech32PatternChar

/-- The MAINNET_P2WPKH / TESTNET_P2WPKH patterns: hrp, then 1q, then exactly
38 characters of the bech32 pattern class. -/
def testP2wpkh (hrp addr : List Nat) : Bool :=
  addr.take (hrp.length + 2) == hrp ++ [49, 113] &&
  addr.length == hrp.length + 40 &&
  (addr.drop (hrp.length + 2)).all isBase58PatternChar

/-- The LEGACY pattern: leading 1 or 3, then 25 to 34 base58 characters. -/
def testLegacy (addr : List Nat) : Bool :=
  match addr with
  | [] => false
  | c :: rest =>
    (c == 49 || c == 51) && decide (25 ≤ rest.length) &&
      decide (rest.length ≤ 34) && rest.all isBase58PatternChar

/-- The TESTNET_LEGACY pattern: leading m, n or 2, then 25 to 34 base58
characters. -/
def testLegacyTestnet (addr : List Nat) : Bool :=
  match addr with
  | [] => false
  | c :: rest =>
    (c == 109 || c == 110 || c == 50) && decide (25 ≤ rest.length) &&
      decide (rest.length ≤ 34) && rest.all isBase58PatternChar

/-- Address type reported by validateAddress. -/
inductive AddrType
  | p2tr
  | p2wpkh
  | legacy
  deriving DecidableEq

/-- The AddressValidation result of CharmsWallet.validateAddress. -/
structure AddressValidation where
  valid : Bool
  network : Option Network
  type : Option AddrType
  deriving DecidableEq

/-- CharmsWallet.validateAddress on a wallet whose config network is
`network`: the six patterns are tried in source order, P2TR first, each
gated on the configured network; the successful result reports the
configured network and the matching type. -/
def validateAddress (network : Network) (address : List Nat) :
    AddressValidation :=
  if network = Network.mainnet ∧ testP2tr [98, 99] address = true then
    { valid := true, network := some Network.mainnet, type := some AddrType.p2tr }
  else if (network = Network.testnet ∨ network = Network.testnet4) ∧
      testP2tr [116, 98] address = true then
    { valid := true, network := some network, type := some AddrType.p2tr }
  else if network = Network.mainnet ∧ testP2wpkh [98, 99] address = true then
    { valid := true, network := some Network.mainnet, type := some AddrType.p2wpkh }
  else if (network = Network.testnet ∨ network = Network.testnet4) ∧
      testP2wpkh [116, 98] address = true then
    { valid := true, network := some network, type := some AddrType.p2wpkh }
  else if network = Network.mainnet ∧ testLegacy address = true then
    { valid := true, network := some Network.mainnet, type := some AddrType.legacy }
  else if (network = Network.testnet ∨ network = Network.testnet4) ∧
      testLegacyTestnet address = true then
    { valid := true, network := some network, type := some AddrType.legacy }
  else
    { valid := false, network := none, type := none }

/-! Validity predicates: declarative characterizations of what the two
validators accept, to be proved equivalent to them. -/

/-- What validateSimpleParams actually accepts: non-empty well-shaped UTXOs
(with no minimum-amount requirement), non-empty outputs each with an address
and an amount at or above the dust threshold, a change address, and - only
when the feeRate argument is present and non-zero - a fee rate within
[MIN_FEE_RATE, MAX_FEE_RATE]. -/
def simpleParamsValid (p : SimpleTxParams) : Prop :=
  p.utxos ≠ [] ∧ (∀ u ∈ p.utxos, ¬ utxoShapeBad u) ∧ p.outputs ≠ [] ∧
  (∀ o ∈ p.outputs, o.address ≠ [] ∧ DUST_THRESHOLD ≤ o.amount) ∧
  p.changeAddress ≠ [] ∧
  (feeRateTruthy p.feeRate →
    MIN_FEE_RATE ≤ effectiveFeeRate p.feeRate ∧
      effectiveFeeRate p.feeRate ≤ MAX_FEE_RATE)

/-- What validateMiningParams accepts: a well-shaped UTXO of at least
MIN_UTXO_AMOUNT, a hash of at least 32 characters, a non-negative nonce, a
change address, and the same truthiness-guarded fee-rate range check. -/
def miningParamsValid (p : MiningTxParams) : Prop :=
  ¬ utxoShapeBad p.utxo ∧ MIN_UTXO_AMOUNT ≤ p.utxo.amount ∧
  p.miningData.hash ≠ "" ∧ 32 ≤ p.miningData.hash.length ∧
  0 ≤ p.miningData.nonce ∧ p.changeAddress ≠ [] ∧
  (feeRateTruthy p.feeRate →
    MIN_FEE_RATE ≤ effectiveFeeRate p.feeRate ∧
      effectiveFeeRate p.feeRate ≤ MAX_FEE_RATE)

/-- outputError rejects exactly the outputs with no address or a sub-dust
amount. -/
theorem outputError_eq_none (o : Output) :
    outputError o = none ↔ o.address ≠ [] ∧ DUST_THRESHOLD ≤ o.amount := by
  unfold outputError DUST_THRESHOLD
  constructor
  · intro h
    split_ifs at h with h1 h2
    push_neg at h1
    exact ⟨h1.1, by omega⟩
  · rintro ⟨ha, hd⟩
    have h1 : ¬ (o.address = [] ∨ o.amount ≤ 0) := by
      rintro (h | h)
      · exact ha h
      · omega
    rw [if_neg h1, if_neg (by omega)]

/-- The any-based UTXO shape scan fails on no UTXO exactly when every UTXO
is well shaped. -/
theorem utxoScan_iff (us : List UTXO) :
    ¬ (us.any fun u => decide (utxoShapeBad u)) = true ↔
      ∀ u ∈ us, ¬ utxoShapeBad u := by
  simp [List.any_eq_true]

/-- The fee-rate branch condition of the validators is false exactly when a
truthy fee rate lies within the allowed range. -/
theorem feeRateCheck_iff (fr : Option Int) :
    ¬ (feeRateTruthy fr ∧
        (fr.getD DEFAULT_FEE_RATE < MIN_FEE_RATE ∨
          MAX_FEE_RATE < fr.getD DEFAULT_FEE_RATE)) ↔
      (feeRateTruthy fr →
        MIN_FEE_RATE ≤ effectiveFeeRate fr ∧
          effectiveFeeRate fr ≤ MAX_FEE_RATE) := by
  unfold effectiveFeeRate
  constructor
  · intro h ht
    constructor <;> by_contra hc <;> exact h ⟨ht, by omega⟩
  · rintro h ⟨ht, hr⟩
    have := h ht
    omega

/-- validateSimpleParams succeeds exactly on simpleParamsValid parameters. -/
theorem validateSimpleParams_eq_none_iff (p : SimpleTxParams) :
    validateSimpleParams p = none ↔ simpleParamsValid p := by
  constructor
  · intro h
    unfold validateSimpleParams at h
    rcases hfs : p.outputs.findSome? outputError with _ | e <;> rw [hfs] at h
    · split_ifs at h with h1 h2 h3 h4 h5
      have hout : ∀ o ∈ p.outputs, o.address ≠ [] ∧ DUST_THRESHOLD ≤ o.amount := by
        rw [List.findSome?_eq_none_iff] at hfs
        intro o ho
        exact (outputError_eq_none o).mp (hfs o ho)
      exact ⟨h1, (utxoScan_iff p.utxos).mp h2, h3, hout, h4,
        (feeRateCheck_iff p.feeRate).mp h5⟩
    · split_ifs at h
  · rintro ⟨hne, hshape, hone, hout, hchg, hfee⟩
    have hfs : p.outputs.findSome? outputError = none := by
      rw [List.findSome?_eq_none_iff]
      intro o ho
      exact (outputError_eq_none o).mpr (hout o ho)
    unfold validateSimpleParams
    rw [if_neg hne, if_neg ((utxoScan_iff p.utxos).mpr hshape),
      if_neg hone, hfs]
    rw [if_neg hchg, if_neg ((feeRateCheck_iff p.feeRate).mpr hfee)]

/-- validateMiningParams succeeds exactly on miningParamsValid parameters. -/
theorem validateMiningParams_eq_none_iff (p : MiningTxParams) :
    validateMiningParams p = none ↔ miningParamsValid p := by
  unfold validateMiningParams miningParamsValid MIN_UTXO_AMOUNT
  constructor
  · intro h
    split_ifs at h with h1 h2 h3 h4 h5 h6 h7
    exact ⟨h1, by omega, h3, by omega, by omega, h6,
      (feeRateCheck_iff p.feeRate).mp h7⟩
  · rintro ⟨h1, h2, h3, h4, h5, h6, h7⟩
    rw [if_neg h1, if_neg (by omega), if_neg h3, if_neg (by omega),
      if_neg (by omega), if_neg h6,
      if_neg ((feeRateCheck_iff p.feeRate).mpr h7)]

/-- Every error either validator produces is a ValidationError. -/
theorem validators_produce_validationError :
    (∀ p e, validateSimpleParams p = some e →
      ∃ m, e = WalletError.validationError m) ∧
    (∀ p e, validateMiningParams p = some e →
      ∃ m, e = WalletError.validationError m) := by
  constructor
  · intro p e h
    unfold validateSimpleParams at h
    rcases hfs : p.outputs.findSome? outputError with _ | e' <;> rw [hfs] at h
    · split_ifs at h <;> cases h <;> exact ⟨_, rfl⟩
    · have he' : ∃ m, e' = WalletError.validationError m := by
        rcases List.exists_of_findSome?_eq_some hfs with ⟨o, _, ho⟩
        unfold outputError at ho
        split_ifs at ho <;> cases ho <;> exact ⟨_, rfl⟩
      split_ifs at h <;> cases h <;> first
        | exact ⟨_, rfl⟩
        | exact he'
  · intro p e h
    unfold validateMiningParams at h
    split_ifs at h <;> cases h <;> exact ⟨_, rfl⟩

/-- A validation failure makes the builder return exactly that error: no
transaction is constructed. -/
theorem builders_propagate_validation :
    (∀ p e, validateSimpleParams p = some e →
      createSimpleTransaction p = Except.error e) ∧
    (∀ p e, validateMiningParams p = some e →
      createMiningTransaction p = Except.error e) := by
  constructor
  · intro p e h
    unfold createSimpleTransaction
    rw [h]
  · intro p e h
    unfold createMiningTransaction
    rw [h]

/-- A successfully built input carries its UTXO's amount. -/
theorem mkTxIn_amount (u : UTXO) (ti : TxIn) (h : mkTxIn u = some ti) :
    ti.amount = u.amount := by
  unfold mkTxIn at h
  rcases hx : hexDecode u.txid with _ | bs <;> simp only [hx, Option.map] at h
  · cases h
  · cases h
    rfl

/-- Built inputs carry exactly the UTXO amounts, in order. -/
theorem mkTxIns_amounts : ∀ (us : List UTXO) (ins : List TxIn),
    mkTxIns us = some ins → ins.map TxIn.amount = us.map UTXO.amount := by
  intro us
  induction us with
  | nil =>
    intro ins h
    cases h
    rfl
  | cons u rest ih =>
    intro ins h
    unfold mkTxIns at h
    rcases h1 : mkTxIn u with _ | ti <;> simp only [h1] at h
    · cases h
    · rcases h2 : mkTxIns rest with _ | tis <;> simp only [h2] at h
      · cases h
      · cases h
        simp [mkTxIn_amount u ti h1, ih tis h2]

/-- The requested outputs of a simple build carry the requested amounts. -/
theorem mkTxOuts_total (p : SimpleTxParams) :
    ((mkTxOuts p).map TxOut.amount).sum = totalOutputOf p := by
  unfold mkTxOuts totalOutputOf
  rw [List.map_map]
  rfl

/-- One built output per requested output. -/
theorem mkTxOuts_length (p : SimpleTxParams) :
    (mkTxOuts p).length = p.outputs.length := by
  simp [mkTxOuts]

/-- A fee rate accepted by validation is non-negative (either the default
10, an explicit 0, or a value in [1, 1000]). -/
theorem effectiveFeeRate_nonneg (fr : Option Int)
    (h : feeRateTruthy fr →
      MIN_FEE_RATE ≤ effectiveFeeRate fr ∧ effectiveFeeRate fr ≤ MAX_FEE_RATE) :
    0 ≤ effectiveFeeRate fr := by
  rcases fr with _ | r
  · simp [effectiveFeeRate, DEFAULT_FEE_RATE]
  · by_cases hr : r = 0
    · simp [effectiveFeeRate, hr]
    · have := h hr
      unfold MIN_FEE_RATE at this
      unfold effectiveFeeRate at this ⊢
      omega

/-- The fee the builder charges is non-negative whenever validation
passed. -/
theorem simpleFee_nonneg (p : SimpleTxParams)
    (hv : validateSimpleParams p = none) : 0 ≤ simpleFee p := by
  have hvalid := (validateSimpleParams_eq_none_iff p).mp hv
  have h0 := effectiveFeeRate_nonneg p.feeRate hvalid.2.2.2.2.2
  unfold simpleFee
  exact mul_nonneg h0 (Int.natCast_nonneg _)

/-- C2 (amended): for every successfully built single-input simple
transaction, the signer's fee field (calculateFee on the UTXO passed to the
signer) equals the sum of input amounts minus the sum of output amounts of
the finalized transaction and is non-negative, and every change output the
builder appended beyond the requested outputs has amount above the 546-sat
dust threshold.  (For multi-input transactions the fee field uses only the
single UTXO argument; see the counterexample.) -/
theorem fee_field_single_input (p : SimpleTxParams) (u : UTXO) (tx : Tx)
    (hu : p.utxos = [u]) (hok : createSimpleTransaction p = Except.ok tx) :
    calculateFee u tx = txInputsTotal tx - txOutputsTotal tx ∧
    0 ≤ calculateFee u tx ∧
    ∀ o ∈ tx.outputs.drop p.outputs.length, DUST_THRESHOLD < o.amount := by
  unfold createSimpleTransaction at hok
  rcases hv : validateSimpleParams p with _ | e <;> rw [hv] at hok
  case some => cases hok
  rcases hins : mkTxIns p.utxos with _ | ins <;> simp only [hins] at hok
  case none => cases hok
  have hfee := simpleFee_nonneg p hv
  have hchg : simpleChange p = totalInputOf p - totalOutputOf p - simpleFee p :=
    rfl
  have hinu : totalInputOf p = u.amount := by
    unfold totalInputOf
    rw [hu]
    simp
  have hinsTot : (ins.map TxIn.amount).sum = u.amount := by
    rw [mkTxIns_amounts p.utxos ins hins, hu]
    simp
  split_ifs at hok with hgt hneg
  · cases hok
    have e1 : txInputsTotal
        { inputs := ins,
          outputs := mkTxOuts p ++
            [{ script := createScriptPubKey p.changeAddress,
               amount := simpleChange p }] } = u.amount := hinsTot
    have e2 : txOutputsTotal
        { inputs := ins,
          outputs := mkTxOuts p ++
            [{ script := createScriptPubKey p.changeAddress,
               amount := simpleChange p }] } =
        totalOutputOf p + simpleChange p := by
      unfold txOutputsTotal
      simp [mkTxOuts_total]
    have e3 : calculateFee u
        { inputs := ins,
          outputs := mkTxOuts p ++
            [{ script := createScriptPubKey p.changeAddress,
               amount := simpleChange p }] } =
        u.amount - txOutputsTotal
          { inputs := ins,
            outputs := mkTxOuts p ++
              [{ script := createScriptPubKey p.changeAddress,
                 amount := simpleChange p }] } := rfl
    refine ⟨by omega, by omega, ?_⟩
    intro o ho
    dsimp only at ho
    rw [show p.outputs.length = (mkTxOuts p).length from
      (mkTxOuts_length p).symm, List.drop_left] at ho
    rcases List.mem_singleton.mp ho with rfl
    exact hgt
  · cases hok
    have e1 : txInputsTotal { inputs := ins, outputs := mkTxOuts p } =
        u.amount := hinsTot
    have e2 : txOutputsTotal { inputs := ins, outputs := mkTxOuts p } =
        totalOutputOf p := by
      unfold txOutputsTotal
      simp [mkTxOuts_total]
    have e3 : calculateFee u { inputs := ins, outputs := mkTxOuts p } =
        u.amount - txOutputsTotal { inputs := ins, outputs := mkTxOuts p } :=
      rfl
    refine ⟨by omega, by omega, ?_⟩
    intro o ho
    dsimp only at ho
    rw [show p.outputs.length = (mkTxOuts p).length from
      (mkTxOuts_length p).symm, List.drop_length] at ho
    cases ho

/-- C3 (amended): for a simple build whose parameters validate and whose
txids decode, a change output paying the change address is appended exactly
when change is strictly greater than the 546-sat dust threshold, and a
change in [0, 546] - including exactly 546 - is silently absorbed into the
fee while the transaction is still returned successfully. -/
theorem change_output_policy (p : SimpleTxParams) (ins : List TxIn)
    (hv : validateSimpleParams p = none) (hins : mkTxIns p.utxos = some ins) :
    (DUST_THRESHOLD < simpleChange p →
      createSimpleTransaction p = Except.ok
        { inputs := ins,
          outputs := mkTxOuts p ++
            [{ script := createScriptPubKey p.changeAddress,
               amount := simpleChange p }] }) ∧
    (0 ≤ simpleChange p ∧ simpleChange p ≤ DUST_THRESHOLD →
      createSimpleTransaction p = Except.ok
        { inputs := ins, outputs := mkTxOuts p }) := by
  unfold createSimpleTransaction
  rw [hv]
  simp only [hins]
  constructor
  · intro hc
    rw [if_pos hc]
  · rintro ⟨h0, h1⟩
    rw [if_neg (by omega), if_neg (by omega)]

/-- C4: a simple build that passes parameter validation but whose inputs
cannot cover the outputs plus the computed fee fails with a
TransactionError; moreover no successful simple build ever contains an
output of non-positive amount (so in particular no negative change
output). -/
theorem insufficient_funds_rejected (p : SimpleTxParams)
    (hv : validateSimpleParams p = none) (hneg : simpleChange p < 0) :
    (∃ m, createSimpleTransaction p =
      Except.error (WalletError.transactionError m)) ∧
    ∀ (q : SimpleTxParams) (tx : Tx),
      createSimpleTransaction q = Except.ok tx →
      ∀ o ∈ tx.outputs, 0 < o.amount := by
  constructor
  · unfold createSimpleTransaction
    rw [hv]
    rcases hins : mkTxIns p.utxos with _ | ins <;> simp only [hins]
    · exact ⟨_, rfl⟩
    · rw [if_neg (by unfold DUST_THRESHOLD; omega), if_pos hneg]
      exact ⟨_, rfl⟩
  · intro q tx hok o ho
    unfold createSimpleTransaction at hok
    rcases hvq : validateSimpleParams q with _ | e <;> rw [hvq] at hok
    case some => cases hok
    rcases hinsq : mkTxIns q.utxos with _ | ins <;> simp only [hinsq] at hok
    case none => cases hok
    have hout := ((validateSimpleParams_eq_none_iff q).mp hvq).2.2.2.1
    split_ifs at hok with hgt hneg2
    · cases hok
      dsimp only at ho
      rcases List.mem_append.mp ho with hmem | hmem
      · unfold mkTxOuts at hmem
        rcases List.mem_map.mp hmem with ⟨oo, hoo, rfl⟩
        have := (hout oo hoo).2
        unfold DUST_THRESHOLD at this
        dsimp only
        omega
      · rcases List.mem_singleton.mp hmem with rfl
        unfold DUST_THRESHOLD at hgt
        dsimp only
        omega
    · cases hok
      dsimp only at ho
      unfold mkTxOuts at ho
      rcases List.mem_map.mp ho with ⟨oo, hoo, rfl⟩
      have := (hout oo hoo).2
      unfold DUST_THRESHOLD at this
      dsimp only
      omega

/-- C6: a mining build whose change (single UTXO amount minus the fee
computed for exactly 1 input and 2 outputs) falls below the 546-sat dust
threshold fails with an error - it is never silently dropped - and no
transaction is returned. -/
theorem mining_subdust_change_rejected (p : MiningTxParams)
    (hv : validateMiningParams p = none)
    (hc : miningChange p < DUST_THRESHOLD) :
    (∃ e, createMiningTransaction p = Except.error e) ∧
    ∀ tx, createMiningTransaction p ≠ Except.ok tx := by
  have herr : ∃ e, createMiningTransaction p = Except.error e := by
    unfold createMiningTransaction
    rw [hv]
    rcases hin : mkTxIn p.utxo with _ | ti <;> simp only [hin]
    · exact ⟨_, rfl⟩
    · rcases hop : createMiningOpReturn p.miningData with e | opret <;>
        simp only [hop]
      · exact ⟨_, rfl⟩
      · rw [if_pos hc]
        exact ⟨_, rfl⟩
  refine ⟨herr, ?_⟩
  intro tx htx
  rcases herr with ⟨e, he⟩
  rw [he] at htx
  cases htx

/-- C5 (amended): both validators run before any construction and reject
with a ValidationError exactly outside their accepted parameter sets; the
mining validator enforces the 1000-sat UTXO minimum but the simple-payment
validator does not, and both skip the fee-rate range check for an absent or
zero (falsy) fee rate. -/
theorem param_validation_characterization :
    (∀ p, validateSimpleParams p = none ↔ simpleParamsValid p) ∧
    (∀ p, validateMiningParams p = none ↔ miningParamsValid p) ∧
    (∀ p e, validateSimpleParams p = some e →
      (∃ m, e = WalletError.validationError m) ∧
      createSimpleTransaction p = Except.error e) ∧
    (∀ p e, validateMiningParams p = some e →
      (∃ m, e = WalletError.validationError m) ∧
      createMiningTransaction p = Except.error e) :=
  ⟨validateSimpleParams_eq_none_iff, validateMiningParams_eq_none_iff,
    fun p e h => ⟨validators_produce_validationError.1 p e h,
      builders_propagate_validation.1 p e h⟩,
    fun p e h => ⟨validators_produce_validationError.2 p e h,
      builders_propagate_validation.2 p e h⟩⟩

/-- Every 5-bit group convertBits5 emits is below 32. -/
theorem convertBits5_bounded : ∀ (l : List Nat) (acc bits : Nat),
    ∀ v ∈ convertBits5 l acc bits, v < 32 := by
  intro l
  induction l with
  | nil =>
    intro acc bits v hv
    unfold convertBits5 at hv
    split_ifs at hv
    · cases hv
    · rcases List.mem_singleton.mp hv with rfl
      have h31 := Nat.and_le_right (n := acc <<< (5 - bits)) (m := 31)
      omega
  | cons b rest ih =>
    intro acc bits v hv
    unfold convertBits5 at hv
    split_ifs at hv <;> simp only [List.mem_cons] at hv
    · rcases hv with rfl | rfl | hv
      · have h31 := Nat.and_le_right
          (n := ((acc <<< 8) ||| b) >>> (bits + 8 - 5)) (m := 31)
        omega
      · have h31 := Nat.and_le_right
          (n := ((acc <<< 8) ||| b) >>> (bits + 8 - 10)) (m := 31)
        omega
      · exact ih _ _ v hv
    · rcases hv with rfl | hv
      · have h31 := Nat.and_le_right
          (n := ((acc <<< 8) ||| b) >>> (bits + 8 - 5)) (m := 31)
        omega
      · exact ih _ _ v hv

/-- The number of 5-bit groups: with fewer than 5 pending bits on entry,
convertBits5 emits one group per 5 bits of input, the final partial group
padded. -/
theorem convertBits5_length : ∀ (l : List Nat) (acc bits : Nat), bits < 5 →
    (convertBits5 l acc bits).length = (8 * l.length + bits + 4) / 5 := by
  intro l
  induction l with
  | nil =>
    intro acc bits h
    unfold convertBits5
    split_ifs with h0
    · simp [h0]
    · simp
      omega
  | cons b rest ih =>
    intro acc bits h
    unfold convertBits5
    split_ifs with h10
    · simp only [List.length_cons, List.length_cons,
        ih ((acc <<< 8) ||| b) (bits + 8 - 10) (by omega)]
      omega
    · simp only [List.length_cons,
        ih ((acc <<< 8) ||| b) (bits + 8 - 5) (by omega)]
      omega

/-- Every checksum group is below 32. -/
theorem bech32CreateChecksum_bounded (hrp data : List Nat) :
    ∀ v ∈ bech32CreateChecksum hrp data, v < 32 := by
  intro v hv
  unfold bech32CreateChecksum at hv
  rcases List.mem_map.mp hv with ⟨i, _, rfl⟩
  have h31 := Nat.and_le_right
    (n := (bech32Polymod (hrpExpand hrp ++ data ++ [0, 0, 0, 0, 0, 0]) ^^^
      bech32mConst) >>> (5 * (5 - i))) (m := 31)
  omega

/-- The checksum always has six groups. -/
theorem bech32CreateChecksum_length (hrp data : List Nat) :
    (bech32CreateChecksum hrp data).length = 6 := by
  unfold bech32CreateChecksum
  simp

/-- Every bech32 data character lies in the [a-zA-HJ-NP-Z0-9] class of the
P2TR address patterns. -/
theorem charset_isBech32PatternChar :
    ∀ v, v < 32 → isBech32PatternChar (bech32Charset.getD v 0) = true := by
  decide

/-- Any string of the shape hrp ++ 1p ++ 58 bech32 data characters matches
the P2TR pattern for that hrp. -/
theorem testP2tr_of_form (hrp : List Nat) (vs : List Nat)
    (hlen : vs.length = 58) (hb : ∀ v ∈ vs, v < 32) :
    testP2tr hrp
      ((hrp ++ [49, 112]) ++ vs.map fun v => bech32Charset.getD v 0) = true := by
  unfold testP2tr
  rw [Bool.and_eq_true, Bool.and_eq_true]
  refine ⟨⟨?_, ?_⟩, ?_⟩
  · rw [List.take_left' (by simp)]
    simp
  · simp [hlen]
  · rw [List.drop_left' (by simp)]
    rw [List.all_eq_true]
    intro c hc
    rcases List.mem_map.mp hc with ⟨v, hv, rfl⟩
    exact charset_isBech32PatternChar v (hb v hv)

/-- C7: for every network and every 32-byte Taproot output key (hence for
the key derived from any valid mnemonic and index), the bech32m address the
derivation produces passes validateAddress on a wallet configured with the
same network, yielding valid = true, that same network, and type p2tr. -/
theorem derived_taproot_address_validates (net : Network) (key : List Nat)
    (hlen : key.length = 32) :
    validateAddress net (p2trAddress net key) =
      { valid := true, network := some net, type := some AddrType.p2tr } := by
  have hcb_len : (convertBits5 key 0 0).length = 52 := by
    have h := convertBits5_length key 0 0 (by omega)
    rw [hlen] at h
    omega
  have hck_len := bech32CreateChecksum_length (hrpOf net)
    (1 :: convertBits5 key 0 0)
  have hb : ∀ v ∈ convertBits5 key 0 0 ++
      bech32CreateChecksum (hrpOf net) (1 :: convertBits5 key 0 0), v < 32 := by
    intro v hv
    rcases List.mem_append.mp hv with hm | hm
    · exact convertBits5_bounded key 0 0 v hm
    · exact bech32CreateChecksum_bounded _ _ v hm
  have hlen58 : (convertBits5 key 0 0 ++
      bech32CreateChecksum (hrpOf net) (1 :: convertBits5 key 0 0)).length = 58 := by
    rw [List.length_append, hcb_len, hck_len]
  have hshape : p2trAddress net key =
      (hrpOf net ++ [49, 112]) ++
        ((convertBits5 key 0 0 ++
          bech32CreateChecksum (hrpOf net) (1 :: convertBits5 key 0 0)).map
          fun v => bech32Charset.getD v 0) := by
    unfold p2trAddress bech32mEncode
    simp
    decide
  have htest : testP2tr (hrpOf net) (p2trAddress net key) = true := by
    rw [hshape]
    exact testP2tr_of_form _ _ hlen58 hb
  cases net
  · unfold validateAddress
    rw [if_pos ⟨rfl, htest⟩]
  · unfold validateAddress
    rw [if_neg (fun hcontra => Network.noConfusion hcontra.1),
      if_pos ⟨Or.inl rfl, htest⟩]
  · unfold validateAddress
    rw [if_neg (fun hcontra => Network.noConfusion hcontra.1),
      if_pos ⟨Or.inr rfl, htest⟩]

/-- The length of the address prefix createScriptPubKey reads: 32 bytes for
bc1p/tb1p addresses, 20 bytes for every other address. -/
def scriptPrefixLen (address : List Nat) : Nat :=
  if address.take 4 = bc1p ∨ address.take 4 = tb1p then 32 else 20

/-- The relevant prefix is at least the 4 classification bytes long. -/
theorem scriptPrefixLen_ge_four (address : List Nat) :
    4 ≤ scriptPrefixLen address := by
  unfold scriptPrefixLen
  split_ifs <;> omega

/-- C10: the output script construction depends only on the fixed-length
byte prefix of the address (32 bytes for bc1p/tb1p addresses, 20 bytes
otherwise) - it never bech32m- or base58-decodes the address - so any two
distinct addresses agreeing on that prefix receive identical output scripts
in both builders (which construct every output script with
createScriptPubKey). -/
theorem script_depends_only_on_address_bytes (a b : List Nat) (_hab : a ≠ b)
    (h : a.take (scriptPrefixLen a) = b.take (scriptPrefixLen b)) :
    createScriptPubKey a = createScriptPubKey b := by
  have h4 : a.take 4 = b.take 4 := by
    have hc := congrArg (List.take 4) h
    rw [List.take_take, List.take_take,
      Nat.min_eq_left (scriptPrefixLen_ge_four a),
      Nat.min_eq_left (scriptPrefixLen_ge_four b)] at hc
    exact hc
  unfold scriptPrefixLen at h
  unfold createScriptPubKey
  by_cases htap : a.take 4 = bc1p ∨ a.take 4 = tb1p
  · have htapb : b.take 4 = bc1p ∨ b.take 4 = tb1p := h4 ▸ htap
    rw [if_pos htap, if_pos htapb] at h
    rw [if_pos htap, if_pos htapb, h]
  · have htapb : ¬ (b.take 4 = bc1p ∨ b.take 4 = tb1p) := h4 ▸ htap
    rw [if_neg htap, if_neg htapb] at h
    rw [if_neg htap, if_neg htapb, h]
    by_cases hsw : a.take 4 = bc1q ∨ a.take 4 = tb1q
    · rw [if_pos hsw, if_pos (h4 ▸ hsw)]
    · rw [if_neg hsw, if_neg (h4 ▸ hsw)]

/-! Concrete inputs for counterexamples and witnesses. -/

/-- A one-character legacy-classified test address (x). -/
def addrX : List Nat := [120]

/-- A one-character legacy-classified test address (y). -/
def addrY : List Nat := [121]

/-- A one-character legacy-classified test address (z). -/
def addrZ : List Nat := [122]

/-- First UTXO of the two-input fee counterexample. -/
def feeCexUtxo : UTXO :=
  { txid := "00", vout := 0, amount := 1000, address := addrX }

/-- Two 1000-sat UTXOs at the same address, one 546-sat output, fee rate
1 sat/vbyte. -/
def feeCexParams : SimpleTxParams :=
  { utxos := [feeCexUtxo,
      { txid := "00", vout := 1, amount := 1000, address := addrX }],
    outputs := [{ address := addrY, amount := 546 }],
    changeAddress := addrZ, feeRate := some 1 }

/-- The transaction feeCexParams builds: fee 210 (size 210 at rate 1), so a
1244-sat change output is appended. -/
def feeCexTx : Tx :=
  { inputs := [
      { txid := [0], vout := 0, script := Script.p2pkh (padTo 20 addrX),
        amount := 1000 },
      { txid := [0], vout := 1, script := Script.p2pkh (padTo 20 addrX),
        amount := 1000 }],
    outputs := [
      { script := Script.p2pkh (padTo 20 addrY), amount := 546 },
      { script := Script.p2pkh (padTo 20 addrZ), amount := 1244 }] }

/-- C2 counterexample: on this successfully built two-input transaction the
signer's fee field is the single passed UTXO's amount minus all outputs,
namely -790 - negative, and different from the claimed
sum-of-inputs minus sum-of-outputs value 210. -/
theorem fee_conservation_counterexample :
    createSimpleTransaction feeCexParams = Except.ok feeCexTx ∧
    calculateFee feeCexUtxo feeCexTx = -790 ∧
    txInputsTotal feeCexTx - txOutputsTotal feeCexTx = 210 := by
  decide

/-- One 1245-sat UTXO, one 546-sat output, fee rate 1: the computed change
is exactly the 546-sat dust threshold. -/
def changeCexParams : SimpleTxParams :=
  { utxos := [{ txid := "00", vout := 0, amount := 1245, address := addrX }],
    outputs := [{ address := addrY, amount := 546 }],
    changeAddress := addrZ, feeRate := some 1 }

/-- The transaction changeCexParams builds: no change output. -/
def changeCexTx : Tx :=
  { inputs := [
      { txid := [0], vout := 0, script := Script.p2pkh (padTo 20 addrX),
        amount := 1245 }],
    outputs := [{ script := Script.p2pkh (padTo 20 addrY), amount := 546 }] }

/-- C3 counterexample: with change exactly equal to 546 the builder appends
no change output (the comparison is strict), contradicting the claim that
change = 546 produces one. -/
theorem change_eq_dust_counterexample :
    simpleChange changeCexParams = 546 ∧
    createSimpleTransaction changeCexParams = Except.ok changeCexTx ∧
    changeCexTx.outputs.length = 1 := by
  decide

/-- A 999-sat UTXO (below the 1000-sat minimum) and an explicit fee rate of
0 (outside [1, 1000]), otherwise valid. -/
def validationCexParams : SimpleTxParams :=
  { utxos := [{ txid := "00", vout := 0, amount := 999, address := addrX }],
    outputs := [{ address := addrY, amount := 546 }],
    changeAddress := addrZ, feeRate := some 0 }

/-- The transaction validationCexParams builds (change 453 is absorbed). -/
def validationCexTx : Tx :=
  { inputs := [
      { txid := [0], vout := 0, script := Script.p2pkh (padTo 20 addrX),
        amount := 999 }],
    outputs := [{ script := Script.p2pkh (padTo 20 addrY), amount := 546 }] }

/-- C5 counterexample: createSimpleTransaction accepts a 999-sat UTXO and a
fee rate of 0 without any ValidationError and returns a transaction,
contradicting the claim that a sub-1000-sat UTXO amount or a fee rate
outside [1, 1000] always raises ValidationError. -/
theorem validation_gap_counterexample :
    validateSimpleParams validationCexParams = none ∧
    createSimpleTransaction validationCexParams =
      Except.ok validationCexTx := by
  decide

/-- C1: the isolated-signer path does not perform elliptic-curve scalar
multiplication: for the private key d = 1 the genuine compressed public key
d*G is 0x02 followed by the base-point x-coordinate (second byte 0x79),
while AddressWallet.derivePublicKey returns 0x02 followed by the key bytes
XORed with 0x01 (second byte 0x01), so the isolated-signer public key
differs from the one the mnemonic-derived HD path (genuine secp256k1)
computes. -/
theorem isolated_signer_pubkey_not_ecmult :
    ptMul 1 secpG = secpG ∧
    derivePublicKey privKeyOne ≠ genuinePublicKey 1 ∧
    (derivePublicKey privKeyOne).getD 1 0 = 1 ∧
    (genuinePublicKey 1).getD 1 0 = 121 := by
  decide

/-- C8: generateMnemonic maps every supported word count other than 12 to
256 bits of entropy, so a request for 15 words yields a 24-word mnemonic
(12 and 24 behave as claimed). -/
theorem generateMnemonic_intermediate_wordCount :
    generateMnemonic 15 = Except.ok 24 ∧
    generateMnemonicEntropyBits 15 = 256 ∧
    generateMnemonic 12 = Except.ok 12 ∧
    generateMnemonic 24 = Except.ok 24 := by
  decide

/-- C9: for the unsupported word count 13 the ValidationError thrown inside
generateMnemonic is caught and re-thrown as a CryptographyError, so the
caller observes a CryptographyError, not a ValidationError. -/
theorem generateMnemonic_unsupported_error_kind :
    generateMnemonic 13 =
      Except.error (WalletError.cryptographyError
        "Failed to generate mnemonic: Unsupported word count") := by
  decide

/-! Witnesses: the hypothesis-bearing theorems instantiated at concrete
inputs. -/

/-- The single UTXO of the fee-field witness. -/
def feeWitnessUtxo : UTXO :=
  { txid := "00", vout := 0, amount := 2000, address := addrX }

/-- Single-input build: 2000-sat UTXO, 546-sat output, fee rate 1. -/
def feeWitnessParams : SimpleTxParams :=
  { utxos := [feeWitnessUtxo],
    outputs := [{ address := addrY, amount := 546 }],
    changeAddress := addrZ, feeRate := some 1 }

/-- The transaction feeWitnessParams builds (change 1301 appended). -/
def feeWitnessTx : Tx :=
  { inputs := [
      { txid := [0], vout := 0, script := Script.p2pkh (padTo 20 addrX),
        amount := 2000 }],
    outputs := [
      { script := Script.p2pkh (padTo 20 addrY), amount := 546 },
      { script := Script.p2pkh (padTo 20 addrZ), amount := 1301 }] }

/-- Witness for the amended C2 theorem at a concrete single-input build. -/
theorem fee_field_single_input_witness :
    calculateFee feeWitnessUtxo feeWitnessTx =
      txInputsTotal feeWitnessTx - txOutputsTotal feeWitnessTx ∧
    0 ≤ calculateFee feeWitnessUtxo feeWitnessTx ∧
    ∀ o ∈ feeWitnessTx.outputs.drop feeWitnessParams.outputs.length,
      DUST_THRESHOLD < o.amount :=
  fee_field_single_input feeWitnessParams feeWitnessUtxo feeWitnessTx
    (by decide) (by decide)

/-- Single-input build whose change is exactly 547. -/
def changeWitnessParams : SimpleTxParams :=
  { utxos := [{ txid := "00", vout := 0, amount := 1246, address := addrX }],
    outputs := [{ address := addrY, amount := 546 }],
    changeAddress := addrZ, feeRate := some 1 }

/-- The built inputs of changeWitnessParams. -/
def changeWitnessIns : List TxIn :=
  [{ txid := [0], vout := 0, script := Script.p2pkh (padTo 20 addrX),
     amount := 1246 }]

/-- Witness for the amended C3 theorem: change 547 > 546 appends a change
output. -/
theorem change_output_policy_witness :
    createSimpleTransaction changeWitnessParams = Except.ok
      { inputs := changeWitnessIns,
        outputs := mkTxOuts changeWitnessParams ++
          [{ script := createScriptPubKey changeWitnessParams.changeAddress,
             amount := simpleChange changeWitnessParams }] } :=
  (change_output_policy changeWitnessParams changeWitnessIns
    (by decide) (by decide)).1 (by decide)

/-- Valid parameters whose inputs cannot cover output plus fee: 1000-sat
UTXO, 546-sat output, fee 1530 at rate 10. -/
def insuffWitnessParams : SimpleTxParams :=
  { utxos := [{ txid := "00", vout := 0, amount := 1000, address := addrX }],
    outputs := [{ address := addrY, amount := 546 }],
    changeAddress := addrZ, feeRate := some 10 }

/-- Witness for the C4 theorem at a concrete underfunded build. -/
theorem insufficient_funds_rejected_witness :
    (∃ m, createSimpleTransaction insuffWitnessParams =
      Except.error (WalletError.transactionError m)) ∧
    ∀ (q : SimpleTxParams) (tx : Tx),
      createSimpleTransaction q = Except.ok tx →
      ∀ o ∈ tx.outputs, 0 < o.amount :=
  insufficient_funds_rejected insuffWitnessParams (by decide) (by decide)

/-- Valid mining parameters whose change 1000 - 1530 falls below dust. -/
def miningWitnessParams : MiningTxParams :=
  { utxo := { txid := "00", vout := 0, amount := 1000, address := addrX },
    miningData := { hash := "00000000000000000000000000000000", nonce := 0 },
    changeAddress := addrZ, feeRate := some 10 }

/-- Witness for the C6 theorem at a concrete sub-dust mining build. -/
theorem mining_subdust_change_rejected_witness :
    (∃ e, createMiningTransaction miningWitnessParams = Except.error e) ∧
    ∀ tx, createMiningTransaction miningWitnessParams ≠ Except.ok tx :=
  mining_subdust_change_rejected miningWitnessParams (by decide) (by decide)

/-- Witness for the C7 theorem at the all-zero 32-byte output key on
testnet. -/
theorem derived_taproot_address_validates_witness :
    validateAddress Network.testnet
      (p2trAddress Network.testnet (List.replicate 32 0)) =
      { valid := true, network := some Network.testnet,
        type := some AddrType.p2tr } :=
  derived_taproot_address_validates Network.testnet (List.replicate 32 0)
    (by decide)

/-- A taproot-classified address sharing its first 32 bytes with tapAddrB
but differing afterwards. -/
def tapAddrA : List Nat := bc1p ++ List.replicate 28 0 ++ [1]

/-- A taproot-classified address sharing its first 32 bytes with tapAddrA
but differing afterwards. -/
def tapAddrB : List Nat := bc1p ++ List.replicate 28 0 ++ [2]

/-- Witness for the C10 theorem at two distinct addresses agreeing on their
32-byte prefix. -/
theorem script_depends_only_on_address_bytes_witness :
    createScriptPubKey tapAddrA = createScriptPubKey tapAddrB :=
  script_depends_only_on_address_bytes tapAddrA tapAddrB (by decide)
    (by decide)

end Charms
